import Mathlib

set_option linter.unusedVariables false

/-!
Shallow embedding of the HTTP filter chain manager of
src/source/common/http/filter_manager.cc (namespace Envoy::Http,
class FilterManager and its ActiveStream{Decoder,Encoder}Filter wrappers).

The translation unit is embedded as an executable state machine over
FMState.  Filter callbacks are scripted (each filter carries a fixed
status and a fixed list of injection actions per callback kind), which is
enough to run the concrete scenarios the specification describes.  C++
ASSERT macros are tracked in an assert_failed flag (debug builds fail
loudly; release builds continue, which is what the state transition
models).  Timer interactions (resetIdleTimer, disarmRequestTimeout) and
log statements are elided, except that the "inserting an empty data
frame" log site of decodeHeaders is kept as a trace event.

The accompanying header filter_manager.h is not part of the repository
snapshot; the small accessors it declares (canContinue, canIterate,
stoppedAll, allowIteration, complete, bufferedData, hasTrailers, the
doHeaders/doData/doTrailers/doMetadata dispatch helpers and the saved
metadata drain) are modelled from the specification and marked as such
in their doc comments.
-/

namespace EnvoyHttp

/-- Iteration state of a filter wrapper.  The four values are named in the
specification (section 3) and are manipulated by filter_manager.cc via
IterationState::StopSingleIteration, StopAllBuffer and StopAllWatermark. -/
inductive IterationState where
  | Continue
  | StopSingleIteration
  | StopAllBuffer
  | StopAllWatermark
deriving DecidableEq, Repr

/-- FilterHeadersStatus values a filter may return from a headers callback. -/
inductive FilterHeadersStatus where
  | Continue
  | StopIteration
  | ContinueAndEndStream
  | StopAllIterationAndBuffer
  | StopAllIterationAndWatermark
deriving DecidableEq, Repr

/-- FilterDataStatus values a filter may return from a data callback. -/
inductive FilterDataStatus where
  | Continue
  | StopIterationAndBuffer
  | StopIterationAndWatermark
  | StopIterationNoBuffer
deriving DecidableEq, Repr

/-- FilterTrailersStatus values a filter may return from a trailers callback. -/
inductive FilterTrailersStatus where
  | Continue
  | StopIteration
deriving DecidableEq, Repr

/-- FilterIterationStartState from filter_manager.cc: whether a dispatch may
start at the calling filter itself (honoring iterate_from_current_filter_)
or always starts at the next filter. -/
inductive StartState where
  | AlwaysStartFromNext
  | CanStartFromCurrent
deriving DecidableEq, Repr

/-- The direction of a filter chain. -/
inductive Dir where
  | decoder
  | encoder
deriving DecidableEq, Repr

/-- The filter_call_state_ bitset: at most one callback kind per direction is
in flight, plus the LastDataFrame marker used while dispatching a data frame
that carried end_stream. -/
structure CallState where
  decodeHeaders : Bool := false
  decodeData : Bool := false
  decodeTrailers : Bool := false
  encodeHeaders : Bool := false
  encodeData : Bool := false
  encodeTrailers : Bool := false
  encode100ContinueHeaders : Bool := false
  lastDataFrame : Bool := false
deriving DecidableEq, Repr

/-- Test for filter_call_state_ == 0: no callback of any kind in flight. -/
def CallState.isZero (cs : CallState) : Bool :=
  !cs.decodeHeaders && !cs.decodeData && !cs.decodeTrailers &&
  !cs.encodeHeaders && !cs.encodeData && !cs.encodeTrailers &&
  !cs.encode100ContinueHeaders && !cs.lastDataFrame

/-- Injection actions a scripted filter may perform from inside a callback,
through its filter-callbacks interface. -/
inductive FAction where
  | addDecodedData (data : String) (streaming : Bool)
  | addDecodedTrailers
  | addDecodedMetadata (tag : Nat)
  | addEncodedData (data : String) (streaming : Bool)
  | addEncodedTrailers
deriving DecidableEq, Repr

/-- A scripted user filter: the status it returns from each callback kind and
the injection actions it performs while that callback is in flight. -/
structure FilterScript where
  onHeaders : FilterHeadersStatus := .Continue
  onHeadersActions : List FAction := []
  onData : FilterDataStatus := .Continue
  onDataActions : List FAction := []
  onTrailers : FilterTrailersStatus := .Continue
  onTrailersActions : List FAction := []
  on100 : FilterHeadersStatus := .Continue
deriving DecidableEq, Repr

instance : Inhabited FilterScript := ⟨{}⟩

/-- Per-filter wrapper state (ActiveStreamFilterBase).  headers_called stands
for decode_headers_called_ on the decoder side and encode_headers_called_ on
the encoder side; saved_metadata is the wrapper's pending metadata queue,
with metadata maps modelled as Nat tags. -/
structure FilterSt where
  iteration_state : IterationState := .Continue
  iterate_from_current : Bool := false
  headers_continued : Bool := false
  continue_headers_continued : Bool := false
  headers_called : Bool := false
  end_stream : Bool := false
  saved_metadata : List Nat := []
  script : FilterScript := {}
deriving DecidableEq, Repr

instance : Inhabited FilterSt := ⟨{}⟩

/-- Observable events of a run: filter callback invocations, codec sink
(StreamSink) emissions, the empty-data insertion log site of decodeHeaders,
and marker events for the dispatch steps of commonContinue. -/
inductive Ev where
  | decodeHeadersCalled (i : Nat) (endStream : Bool)
  | decodeDataCalled (i : Nat) (data : String) (endStream : Bool)
  | decodeTrailersCalled (i : Nat)
  | decodeMetadataCalled (i : Nat) (tag : Nat)
  | encodeHeadersCalled (i : Nat) (endStream : Bool)
  | encodeDataCalled (i : Nat) (data : String) (endStream : Bool)
  | encodeTrailersCalled (i : Nat)
  | encodeMetadataCalled (i : Nat) (tag : Nat)
  | encode100Called (i : Nat)
  | sinkHeaders (endStream : Bool)
  | sinkData (data : String) (endStream : Bool)
  | sinkTrailers
  | sinkMetadata (tag : Nat)
  | sink100
  | sinkEndStream
  | insertEmptyEndStreamData (i : Nat)
  | ccReplay100
  | ccHeaders (endStream : Bool)
  | ccMetadata
  | ccData (endStream : Bool)
  | ccTrailers
deriving DecidableEq, Repr

/-- The per-stream state of the filter manager.  Buffered bodies are the
manager-owned buffered_request_data_/buffered_response_data_ (byte content
modelled as a String); trailer maps are modelled by their presence;
request_metadata_vector is request_metadata_map_vector_ (none models the
null pointer, some [] an allocated empty vector). -/
structure FMState where
  decoder_filters : List FilterSt := []
  encoder_filters : List FilterSt := []
  filter_call_state : CallState := {}
  buffered_request_data : Option String := none
  buffered_response_data : Option String := none
  request_trailers : Bool := false
  response_trailers : Bool := false
  request_metadata_vector : Option (List Nat) := none
  latest_data_decoding_filter : Option Nat := none
  latest_data_encoding_filter : Option Nat := none
  decoding_headers_only : Bool := false
  encoding_headers_only : Bool := false
  local_complete : Bool := false
  remote_complete : Bool := false
  has_continue_headers : Bool := false
  response_headers : Bool := false
  proxy_100_continue : Bool := true
  decoder_filters_streaming : Bool := false
  encoder_filters_streaming : Bool := false
  assert_failed : Bool := false
  out_of_fuel : Bool := false
  trace : List Ev := []
deriving DecidableEq, Repr

/-- Append an event to the trace. -/
def emit (st : FMState) (e : Ev) : FMState :=
  { st with trace := st.trace ++ [e] }

/-- Track a C++ ASSERT: the condition failing latches assert_failed. -/
def assertB (st : FMState) (b : Bool) : FMState :=
  { st with assert_failed := st.assert_failed || !b }

/-- Read the filter at position i of the chain of the given direction. -/
def getF (st : FMState) (d : Dir) (i : Nat) : FilterSt :=
  match d with
  | .decoder => st.decoder_filters.getD i default
  | .encoder => st.encoder_filters.getD i default

/-- Update the filter at position i of the chain of the given direction. -/
def updF (st : FMState) (d : Dir) (i : Nat) (g : FilterSt → FilterSt) : FMState :=
  match d with
  | .decoder => { st with decoder_filters :=
      st.decoder_filters.set i (g (st.decoder_filters.getD i default)) }
  | .encoder => { st with encoder_filters :=
      st.encoder_filters.set i (g (st.encoder_filters.getD i default)) }

/-- Length of the chain of the given direction. -/
def chainLen (st : FMState) (d : Dir) : Nat :=
  match d with
  | .decoder => st.decoder_filters.length
  | .encoder => st.encoder_filters.length

/-- The direction's shared buffered body (bufferedData() of the wrapper
resolves to the manager's buffer of its direction). -/
def buffer (st : FMState) (d : Dir) : Option String :=
  match d with
  | .decoder => st.buffered_request_data
  | .encoder => st.buffered_response_data

/-- Replace the direction's shared buffered body. -/
def setBuffer (st : FMState) (d : Dir) (b : Option String) : FMState :=
  match d with
  | .decoder => { st with buffered_request_data := b }
  | .encoder => { st with buffered_response_data := b }

/-- Modelled from the spec: hasTrailers() of a wrapper reports whether the
direction's trailer map has been allocated (request_trailers_ on the decoder
side, response_trailers_ on the encoder side). -/
def hasTrailersSt (st : FMState) (d : Dir) : Bool :=
  match d with
  | .decoder => st.request_trailers
  | .encoder => st.response_trailers

/-- Modelled from the spec: complete() of a wrapper: the decoder side is
complete once the peer finished the request (remote_complete_), the encoder
side once the local response finished (local_complete_, set by
commonEncodePrefix on the initial encode call). -/
def completeSt (st : FMState) (d : Dir) : Bool :=
  match d with
  | .decoder => st.remote_complete
  | .encoder => st.local_complete

/-- Set the direction's filters_streaming flag (decoder_filters_streaming_ or
encoder_filters_streaming_), which the C++ passes by reference. -/
def setStreaming (st : FMState) (d : Dir) (b : Bool) : FMState :=
  match d with
  | .decoder => { st with decoder_filters_streaming := b }
  | .encoder => { st with encoder_filters_streaming := b }

/-- Modelled from the spec: canIterate() reports that the wrapper is not in
any stopped state (iteration_state_ == Continue). -/
def canIterate (f : FilterSt) : Bool :=
  match f.iteration_state with
  | .Continue => true
  | _ => false

/-- Modelled from the spec: stoppedAll() reports the StopAll states, which
additionally defer data, trailers and metadata on this wrapper. -/
def stoppedAll (f : FilterSt) : Bool :=
  match f.iteration_state with
  | .StopAllBuffer => true
  | .StopAllWatermark => true
  | _ => false

/-- Modelled from the spec: commonContinue preconditions say a filter whose
iteration is already running cannot be continued, so canContinue() holds
exactly for a stopped filter. -/
def canContinueFn (st : FMState) (d : Dir) (i : Nat) : Bool :=
  !(canIterate (getF st d i))

/-- ActiveStreamFilterBase::commonHandleBufferData (filter_manager.cc lines
738-753): if the provided data is not already the direction's buffer, move
it into the buffer, creating the buffer on first use.  isAlias marks the
provided-data-is-the-buffer case. -/
def commonHandleBufferData (st : FMState) (d : Dir) (data : String) (isAlias : Bool) :
    FMState :=
  if isAlias then st
  else
    match buffer st d with
    | none => setBuffer st d (some data)
    | some b => setBuffer st d (some (b ++ data))

/-- The latest_data_filter update of recordLatestDataFilter (filter_manager.cc
lines 12-34) applied to chain positions: filter identity within one chain is
its position, so the pointer comparisons become index comparisons. -/
def recordLatestIdx (i : Nat) (latest : Option Nat) : Option Nat :=
  match latest with
  | none => some i
  | some l => if i ≠ 0 ∧ l = i - 1 then some i else latest

/-- recordLatestDataFilter (filter_manager.cc lines 12-34) over a chain of
filter identities: latest becomes the current filter when unset, or when the
current latest is the predecessor of the current filter; otherwise it is
left unchanged. -/
def recordLatestDataFilter (chain : List Nat) (i : Nat) (latest : Option Nat) :
    Option Nat :=
  match latest with
  | none => chain[i]?
  | some l => if i ≠ 0 ∧ chain[i - 1]? = some l then chain[i]? else some l

/-- Folding recordLatestDataFilter over the positions visited by one
data-dispatch loop. -/
def sweepLatest (chain : List Nat) (ps : List Nat) (latest : Option Nat) :
    Option Nat :=
  ps.foldl (fun l p => recordLatestDataFilter chain p l) latest

/-- FilterManager::addDecodedTrailers (filter_manager.cc lines 522-531):
asserts the LastDataFrame bit and an empty request trailer slot, then
allocates the request trailer map. -/
def addDecodedTrailersFn (st : FMState) : FMState :=
  let st := assertB st st.filter_call_state.lastDataFrame
  let st := assertB st (!st.request_trailers)
  { st with request_trailers := true }

/-- FilterManager::addEncodedTrailers (filter_manager.cc lines 196-205):
asserts the LastDataFrame bit and an empty response trailer slot, then
allocates the response trailer map. -/
def addEncodedTrailersFn (st : FMState) : FMState :=
  let st := assertB st st.filter_call_state.lastDataFrame
  let st := assertB st (!st.response_trailers)
  { st with response_trailers := true }

/-- FilterManager::addDecodedMetadata via getRequestMetadataMapVector:
allocate the request metadata vector on first use and append the map. -/
def addDecodedMetadataFn (st : FMState) (tag : Nat) : FMState :=
  let v := st.request_metadata_vector.getD []
  { st with request_metadata_vector := some (v ++ [tag]) }

/-- FilterManager::maybeEndDecode (filter_manager.cc lines 1264-1271):
asserts remote_complete_ is not yet set and records it. -/
def maybeEndDecodeFn (st : FMState) (endStream : Bool) : FMState :=
  let st := assertB st (!st.remote_complete)
  { st with remote_complete := endStream }

/-- Modelled from the spec: maybeEndEncode is declared in the absent header;
per the spec the codec sink observes the end-of-stream signal when a
completed frame carrying end_stream is emitted. -/
def maybeEndEncodeFn (st : FMState) (endStream : Bool) : FMState :=
  if endStream then emit st .sinkEndStream else st

/-- FilterManager::commonDecodePrefix (filter_manager.cc lines 59-72): the
start position of a decoder-chain dispatch: the chain beginning for codec
calls, the calling filter itself when resuming after StopAll (for frame
kinds that may start from the current filter), the next filter otherwise. -/
def commonDecodeBegin (st : FMState) (filter : Option Nat) (start : StartState) : Nat :=
  match filter with
  | none => 0
  | some i =>
    if start = .CanStartFromCurrent ∧ (getF st .decoder i).iterate_from_current then i
    else i + 1

/-- FilterManager::commonEncodePrefix (filter_manager.cc lines 38-57): like
the decoder version, but the initial call (null filter) also asserts
local_complete_ is unset and records end_stream into it. -/
def commonEncodeBegin (st : FMState) (filter : Option Nat) (endStream : Bool)
    (start : StartState) : FMState × Nat :=
  match filter with
  | none =>
    let st := assertB st (!st.local_complete)
    ({ st with local_complete := endStream }, 0)
  | some i =>
    if start = .CanStartFromCurrent ∧ (getF st .encoder i).iterate_from_current then (st, i)
    else (st, i + 1)

/-- The decision addDecodedData/addEncodedData makes from the in-flight call
bitset: buffer on the direction buffer, inline-dispatch to subsequent
filters with the recorded end_stream and start policy, or fail loudly. -/
inductive AddDataDecision where
  | buffer
  | inlineDispatch (endStream : Bool) (start : StartState)
  | error
deriving DecidableEq, Repr

/-- The branch structure of FilterManager::addDecodedData (filter_manager.cc
lines 533-553): buffer when no callback is in flight or a decode
headers/data callback is in flight or a decode trailers callback is in
flight on a filter that cannot iterate; inline dispatch (end_stream false,
starting after the calling filter) when a decode trailers callback is in
flight otherwise; anything else is NOT_IMPLEMENTED. -/
def addDecodedDataDecision (cs : CallState) (canIter : Bool) : AddDataDecision :=
  if cs.isZero || cs.decodeHeaders || cs.decodeData ||
      (cs.decodeTrailers && !canIter) then
    .buffer
  else if cs.decodeTrailers then
    .inlineDispatch false .AlwaysStartFromNext
  else
    .error

/-- The branch structure of FilterManager::addEncodedData (filter_manager.cc
lines 207-227), the encoder-side mirror of addDecodedDataDecision. -/
def addEncodedDataDecision (cs : CallState) (canIter : Bool) : AddDataDecision :=
  if cs.isZero || cs.encodeHeaders || cs.encodeData ||
      (cs.encodeTrailers && !canIter) then
    .buffer
  else if cs.encodeTrailers then
    .inlineDispatch false .AlwaysStartFromNext
  else
    .error

set_option maxHeartbeats 3200000

/-- The pending-call shapes of the interpreter: one constructor per function
of the filter_manager.cc translation unit (plus its loop bodies and the
helpers the absent header declares).  The interpreter is a single
fuel-indexed function over these requests so that concrete runs reduce
efficiently; the named wrappers below restore the per-function view. -/
inductive Req where
  | rqDecodeHeaders (filter : Option Nat) (endStream : Bool)
  | rqDecodeHeadersLoop (i : Nat) (endStream : Bool) (cde : Option Nat)
  | rqDecodeData (filter : Option Nat) (data : String) (isAlias endStream : Bool)
      (start : StartState)
  | rqDecodeDataLoop (i : Nat) (data : String) (isAlias endStream tExisted : Bool)
      (tAdded : Option Nat)
  | rqDecodeTrailers (filter : Option Nat)
  | rqDecodeTrailersLoop (i : Nat)
  | rqDecodeMetadata (filter : Option Nat) (tag : Nat)
  | rqDecodeMetadataLoop (i : Nat) (tag : Nat)
  | rqProcessNewlyAddedMetadata
  | rqDecodeMetadataList (tags : List Nat)
  | rqAddDecodedData (i : Nat) (data : String) (streaming : Bool)
  | rqAddEncodedData (i : Nat) (data : String) (streaming : Bool)
  | rqEncodeHeaders (filter : Option Nat) (endStream : Bool)
  | rqEncodeHeadersLoop (i : Nat) (endStream : Bool) (cde : Option Nat)
  | rqEncodeData (filter : Option Nat) (data : String) (isAlias endStream : Bool)
      (start : StartState)
  | rqEncodeDataLoop (i : Nat) (data : String) (isAlias endStream tExisted : Bool)
      (tAdded : Option Nat)
  | rqEncodeTrailers (filter : Option Nat)
  | rqEncodeTrailersLoop (i : Nat)
  | rqEncodeMetadata (filter : Option Nat) (tag : Nat)
  | rqEncodeMetadataLoop (i : Nat) (tag : Nat)
  | rqEncode100 (filter : Option Nat)
  | rqEncode100Loop (i : Nat)
  | rqCommonContinue (d : Dir) (i : Nat)
  | rqDoHeaders (d : Dir) (i : Nat) (es : Bool)
  | rqDoData (d : Dir) (i : Nat) (es : Bool)
  | rqDoTrailers (d : Dir) (i : Nat)
  | rqDoMetadata (d : Dir) (i : Nat)
  | rqDrainSavedMetadata (d : Dir) (i : Nat) (tags : List Nat)
  | rqDo100ContinueHeaders (d : Dir) (i : Nat)
  | rqHandleMetadataAfterHeadersCallback (d : Dir) (i : Nat)
  | rqCommonHandleAfterHeadersCallback (d : Dir) (i : Nat) (status : FilterHeadersStatus)
  | rqCommonHandleAfterDataCallback (d : Dir) (i : Nat) (status : FilterDataStatus)
      (data : String) (isAlias : Bool)
  | rqCommonHandleAfterTrailersCallback (d : Dir) (i : Nat) (status : FilterTrailersStatus)
  | rqRunActions (i : Nat) (actions : List FAction)
deriving DecidableEq, Repr

/-- The out-of-fuel base case of the interpreter.  The early guards of
decodeData, decodeTrailers and commonContinue sit before any recursion in
the source, so they apply even with no fuel left: those requests return
the state unchanged when their guard fires. -/
def interpZero : Req → FMState → FMState × Bool := fun rq st =>
  match rq with
  | .rqDecodeData _ _ _ _ _ =>
    if st.decoding_headers_only then (st, false)
    else if st.local_complete then (st, false)
    else ({ st with out_of_fuel := true }, false)
  | .rqDecodeTrailers _ =>
    if st.decoding_headers_only then (st, false)
    else if st.local_complete then (st, false)
    else ({ st with out_of_fuel := true }, false)
  | .rqEncodeData _ _ _ _ _ =>
    if st.encoding_headers_only then (st, false)
    else ({ st with out_of_fuel := true }, false)
  | .rqEncodeTrailers _ =>
    if st.encoding_headers_only then (st, false)
    else ({ st with out_of_fuel := true }, false)
  | .rqCommonContinue d i =>
    if canContinueFn st d i then ({ st with out_of_fuel := true }, false)
    else (st, false)
  | _ => ({ st with out_of_fuel := true }, false)

/-- One step of the interpreter: the body of each filter_manager.cc
function, with ih standing for the calls it makes.  The second component
of the result is the boolean some functions return (false where the
C++ function returns void). -/
def interpStep (ih : Req → FMState → FMState × Bool) : Req → FMState → FMState × Bool :=
  fun rq st =>
  match rq with
  | .rqDecodeHeaders filter endStream =>
    -- FilterManager::decodeHeaders (filter_manager.cc lines 345-409): headers
    -- iteration always starts with the next filter.
    ih (.rqDecodeHeadersLoop (commonDecodeBegin st filter .AlwaysStartFromNext)
      endStream none) st
  | .rqDecodeHeadersLoop i endStream cde =>
    -- The per-filter loop of FilterManager::decodeHeaders, with the
    -- continue_data_entry accumulator and the post-loop continuation (lines
    -- 352-401).  Iteration stops on a stop status only if this is not the
    -- last filter of the chain; the last filter falls through so buffered
    -- body added by a previous filter can still be processed.
    if i < st.decoder_filters.length then
      let st := assertB st (!st.filter_call_state.decodeHeaders)
      let st := { st with filter_call_state :=
        { st.filter_call_state with decodeHeaders := true } }
      let fes := st.decoding_headers_only || (endStream && cde.isNone)
      let st := updF st .decoder i (fun fl => { fl with end_stream := fes })
      let st := emit st (.decodeHeadersCalled i fes)
      let script := (getF st .decoder i).script
      let st := (ih (.rqRunActions i script.onHeadersActions) st).1
      let status := script.onHeaders
      let st := assertB st (!(status == .ContinueAndEndStream && fes))
      let st := { st with filter_call_state :=
        { st.filter_call_state with decodeHeaders := false } }
      let pm := ih .rqProcessNewlyAddedMetadata st
      let st := pm.1
      let st :=
        if fes && pm.2 && st.buffered_request_data.isNone then
          let st := emit st (.insertEmptyEndStreamData i)
          (ih (.rqAddDecodedData i "" true) st).1
        else st
      let st := updF st .decoder i (fun fl => { fl with headers_called := true })
      let r := ih (.rqCommonHandleAfterHeadersCallback .decoder i status) st
      let st := r.1
      if !r.2 && i + 1 < st.decoder_filters.length then (st, false)
      else
        let cde :=
          if endStream && st.buffered_request_data.isSome && cde.isNone then some i else cde
        ih (.rqDecodeHeadersLoop (i + 1) endStream cde) st
    else
      match cde with
      | some j =>
        let st := updF st .decoder j
          (fun fl => { fl with iteration_state := .StopSingleIteration })
        ih (.rqCommonContinue .decoder j) st
      | none => (st, false)
  | .rqDecodeData filter data isAlias endStream start =>
    -- FilterManager::decodeData (filter_manager.cc lines 411-520), with its
    -- early guards on decoding_headers_only_ and local_complete_.
    if st.decoding_headers_only then (st, false)
    else if st.local_complete then (st, false)
    else
      let tExisted := st.request_trailers
      ih (.rqDecodeDataLoop (commonDecodeBegin st filter start) data isAlias endStream
        tExisted none) st
  | .rqDecodeDataLoop i data isAlias endStream tExisted tAdded =>
    -- The per-filter loop of FilterManager::decodeData with the
    -- trailers_added_entry accumulator and the post-loop trailers dispatch
    -- (lines 433-515).  As in decodeHeaders, a stop status at the last
    -- filter falls through to the post-loop processing.
    if i < st.decoder_filters.length then
      let fl := getF st .decoder i
      if stoppedAll fl then
        -- FilterManager::handleDataIfStopAll (lines 695-706).
        let st := assertB st (!(canIterate fl))
        let watermarked := fl.iteration_state == .StopAllWatermark
        let st := { st with decoder_filters_streaming := watermarked }
        (commonHandleBufferData st .decoder data isAlias, false)
      else if fl.end_stream then (st, false)
      else
        let st := assertB st (!st.filter_call_state.decodeData)
        let st :=
          if endStream then
            { st with filter_call_state :=
              { st.filter_call_state with lastDataFrame := true } }
          else st
        let latest := recordLatestIdx i st.latest_data_decoding_filter
        let st := { st with latest_data_decoding_filter := latest }
        let st := { st with filter_call_state :=
          { st.filter_call_state with decodeData := true } }
        let fes := endStream && !st.request_trailers
        let st := updF st .decoder i (fun fl => { fl with end_stream := fes })
        let st := emit st (.decodeDataCalled i data fes)
        let script := (getF st .decoder i).script
        let st := (ih (.rqRunActions i script.onDataActions) st).1
        let status := script.onData
        let st := { st with filter_call_state :=
          { st.filter_call_state with decodeData := false } }
        let st :=
          if endStream then
            { st with filter_call_state :=
              { st.filter_call_state with lastDataFrame := false } }
          else st
        let st := (ih .rqProcessNewlyAddedMetadata st).1
        let tAdded :=
          if !tExisted && st.request_trailers && tAdded.isNone then some i else tAdded
        let r := ih (.rqCommonHandleAfterDataCallback .decoder i status data isAlias) st
        let st := r.1
        if !r.2 && i + 1 < st.decoder_filters.length then (st, false)
        else ih (.rqDecodeDataLoop (i + 1) data isAlias endStream tExisted tAdded) st
    else
      match tAdded with
      | some j => ih (.rqDecodeTrailers (some j)) st
      | none => (st, false)
  | .rqDecodeTrailers filter =>
    -- FilterManager::decodeTrailers (filter_manager.cc lines 555-593), with
    -- the same early guards as decodeData.
    if st.decoding_headers_only then (st, false)
    else if st.local_complete then (st, false)
    else ih (.rqDecodeTrailersLoop (commonDecodeBegin st filter .CanStartFromCurrent)) st
  | .rqDecodeTrailersLoop i =>
    -- The per-filter loop of FilterManager::decodeTrailers (lines 571-591).
    if i < st.decoder_filters.length then
      let fl := getF st .decoder i
      if stoppedAll fl then (st, false)
      else
        let st := assertB st (!st.filter_call_state.decodeTrailers)
        let st := { st with filter_call_state :=
          { st.filter_call_state with decodeTrailers := true } }
        let st := emit st (.decodeTrailersCalled i)
        let script := (getF st .decoder i).script
        let st := (ih (.rqRunActions i script.onTrailersActions) st).1
        let status := script.onTrailers
        let st := updF st .decoder i (fun fl => { fl with end_stream := true })
        let st := { st with filter_call_state :=
          { st.filter_call_state with decodeTrailers := false } }
        let st := (ih .rqProcessNewlyAddedMetadata st).1
        let r := ih (.rqCommonHandleAfterTrailersCallback .decoder i status) st
        if !r.2 then (r.1, false) else ih (.rqDecodeTrailersLoop (i + 1)) r.1
    else (st, false)
  | .rqDecodeMetadata filter tag =>
    -- FilterManager::decodeMetadata (filter_manager.cc lines 1236-1258).
    ih (.rqDecodeMetadataLoop (commonDecodeBegin st filter .CanStartFromCurrent) tag) st
  | .rqDecodeMetadataLoop i tag =>
    -- The per-filter loop of FilterManager::decodeMetadata: a filter that
    -- has not returned from decodeHeaders or that stopped all iteration
    -- stores the metadata on its queue and ends the dispatch.
    if i < st.decoder_filters.length then
      let fl := getF st .decoder i
      if !fl.headers_called || stoppedAll fl then
        (updF st .decoder i
          (fun fl => { fl with saved_metadata := fl.saved_metadata ++ [tag] }), false)
      else
        let st := emit st (.decodeMetadataCalled i tag)
        ih (.rqDecodeMetadataLoop (i + 1) tag) st
    else (st, false)
  | .rqProcessNewlyAddedMetadata =>
    -- FilterManager::processNewlyAddedMetadata (filter_manager.cc lines
    -- 334-343): when the request metadata vector exists, dispatch each
    -- stored map from the chain beginning, clear the vector (which stays
    -- allocated) and report that metadata was added.
    match st.request_metadata_vector with
    | none => (st, false)
    | some tags =>
      let st := (ih (.rqDecodeMetadataList tags) st).1
      ({ st with request_metadata_vector := some [] }, true)
  | .rqDecodeMetadataList tags =>
    -- Dispatch a list of newly added metadata maps in order, each from the
    -- chain beginning.
    match tags with
    | [] => (st, false)
    | t :: ts =>
      let st := (ih (.rqDecodeMetadata none t) st).1
      ih (.rqDecodeMetadataList ts) st
  | .rqAddDecodedData i data streaming =>
    -- FilterManager::addDecodedData (filter_manager.cc lines 533-553), for
    -- the decoder filter at position i: buffer, inline dispatch after this
    -- filter, or fail loudly, per addDecodedDataDecision.
    match addDecodedDataDecision st.filter_call_state (canIterate (getF st .decoder i)) with
    | .buffer =>
      let st := { st with decoder_filters_streaming := streaming }
      (commonHandleBufferData st .decoder data false, false)
    | .inlineDispatch es start => ih (.rqDecodeData (some i) data false es start) st
    | .error => ({ st with assert_failed := true }, false)
  | .rqAddEncodedData i data streaming =>
    -- FilterManager::addEncodedData (filter_manager.cc lines 207-227), for
    -- the encoder filter at position i.
    match addEncodedDataDecision st.filter_call_state (canIterate (getF st .encoder i)) with
    | .buffer =>
      let st := { st with encoder_filters_streaming := streaming }
      (commonHandleBufferData st .encoder data false, false)
    | .inlineDispatch es start => ih (.rqEncodeData (some i) data false es start) st
    | .error => ({ st with assert_failed := true }, false)
  | .rqEncodeHeaders filter endStream =>
    -- FilterManager::encodeHeaders (filter_manager.cc lines 103-162).
    let p := commonEncodeBegin st filter endStream .AlwaysStartFromNext
    ih (.rqEncodeHeadersLoop p.2 endStream none) p.1
  | .rqEncodeHeadersLoop i endStream cde =>
    -- The per-filter loop of FilterManager::encodeHeaders with the
    -- continue_data_entry accumulator, the codec sink emission and the
    -- post-loop continuation (lines 114-161).  Unlike the decoder side, a
    -- stop status returns immediately even at the last filter of the chain.
    if i < st.encoder_filters.length then
      let st := assertB st (!st.filter_call_state.encodeHeaders)
      let st := { st with filter_call_state :=
        { st.filter_call_state with encodeHeaders := true } }
      let fes := st.encoding_headers_only || (endStream && cde.isNone)
      let st := updF st .encoder i (fun fl => { fl with end_stream := fes })
      let st := emit st (.encodeHeadersCalled i fes)
      let script := (getF st .encoder i).script
      let st := (ih (.rqRunActions i script.onHeadersActions) st).1
      let status := script.onHeaders
      let st := { st with filter_call_state :=
        { st.filter_call_state with encodeHeaders := false } }
      let st := updF st .encoder i (fun fl => { fl with headers_called := true })
      let r := ih (.rqCommonHandleAfterHeadersCallback .encoder i status) st
      let st := r.1
      let st := if st.encoding_headers_only then { st with local_complete := true } else st
      if !r.2 then (st, false)
      else
        let cde :=
          if endStream && st.buffered_response_data.isSome && cde.isNone then some i else cde
        ih (.rqEncodeHeadersLoop (i + 1) endStream cde) st
    else
      let mes := st.encoding_headers_only || (endStream && cde.isNone)
      let st := emit st (.sinkHeaders mes)
      let st := maybeEndEncodeFn st mes
      match cde with
      | some j =>
        if !mes then
          let st := assertB st st.buffered_response_data.isSome
          let st := updF st .encoder j
            (fun fl => { fl with iteration_state := .StopSingleIteration })
          ih (.rqCommonContinue .encoder j) st
        else (st, false)
      | none => (st, false)
  | .rqEncodeData filter data isAlias endStream start =>
    -- FilterManager::encodeData (filter_manager.cc lines 229-298), with its
    -- early guard on encoding_headers_only_.
    if st.encoding_headers_only then (st, false)
    else
      let p := commonEncodeBegin st filter endStream start
      let st := p.1
      let tExisted := st.response_trailers
      ih (.rqEncodeDataLoop p.2 data isAlias endStream tExisted none) st
  | .rqEncodeDataLoop i data isAlias endStream tExisted tAdded =>
    -- The per-filter loop of FilterManager::encodeData with the
    -- trailers_added_entry accumulator, the codec sink emission (which
    -- moves the dispatched buffer out) and the post-loop trailers dispatch
    -- (lines 245-297).  Unlike the decoder side, a stop status returns
    -- immediately even at the last filter.
    if i < st.encoder_filters.length then
      let fl := getF st .encoder i
      if stoppedAll fl then
        let st := assertB st (!(canIterate fl))
        let watermarked := fl.iteration_state == .StopAllWatermark
        let st := { st with encoder_filters_streaming := watermarked }
        (commonHandleBufferData st .encoder data isAlias, false)
      else if fl.end_stream then (st, false)
      else
        let st := assertB st (!st.filter_call_state.encodeData)
        let st := { st with filter_call_state :=
          { st.filter_call_state with encodeData := true } }
        let st :=
          if endStream then
            { st with filter_call_state :=
              { st.filter_call_state with lastDataFrame := true } }
          else st
        let latest := recordLatestIdx i st.latest_data_encoding_filter
        let st := { st with latest_data_encoding_filter := latest }
        let fes := endStream && !st.response_trailers
        let st := updF st .encoder i (fun fl => { fl with end_stream := fes })
        let st := emit st (.encodeDataCalled i data fes)
        let script := (getF st .encoder i).script
        let st := (ih (.rqRunActions i script.onDataActions) st).1
        let status := script.onData
        let st := { st with filter_call_state :=
          { st.filter_call_state with encodeData := false } }
        let st :=
          if endStream then
            { st with filter_call_state :=
              { st.filter_call_state with lastDataFrame := false } }
          else st
        let tAdded :=
          if !tExisted && st.response_trailers && tAdded.isNone then some i else tAdded
        let r := ih (.rqCommonHandleAfterDataCallback .encoder i status data isAlias) st
        if !r.2 then (r.1, false)
        else ih (.rqEncodeDataLoop (i + 1) data isAlias endStream tExisted tAdded) r.1
    else
      let mes := endStream && tAdded.isNone
      let st := emit st (.sinkData data mes)
      let st := maybeEndEncodeFn st mes
      let st := if isAlias then setBuffer st .encoder (some "") else st
      match tAdded with
      | some j => ih (.rqEncodeTrailers (some j)) st
      | none => (st, false)
  | .rqEncodeTrailers filter =>
    -- FilterManager::encodeTrailers (filter_manager.cc lines 300-332).
    if st.encoding_headers_only then (st, false)
    else
      let p := commonEncodeBegin st filter true .CanStartFromCurrent
      ih (.rqEncodeTrailersLoop p.2) p.1
  | .rqEncodeTrailersLoop i =>
    -- The per-filter loop of FilterManager::encodeTrailers (lines 312-331).
    if i < st.encoder_filters.length then
      let fl := getF st .encoder i
      if stoppedAll fl then (st, false)
      else
        let st := assertB st (!st.filter_call_state.encodeTrailers)
        let st := { st with filter_call_state :=
          { st.filter_call_state with encodeTrailers := true } }
        let st := emit st (.encodeTrailersCalled i)
        let script := (getF st .encoder i).script
        let st := (ih (.rqRunActions i script.onTrailersActions) st).1
        let status := script.onTrailers
        let st := updF st .encoder i (fun fl => { fl with end_stream := true })
        let st := { st with filter_call_state :=
          { st.filter_call_state with encodeTrailers := false } }
        let r := ih (.rqCommonHandleAfterTrailersCallback .encoder i status) st
        if !r.2 then (r.1, false) else ih (.rqEncodeTrailersLoop (i + 1)) r.1
    else
      let st := emit st .sinkTrailers
      (maybeEndEncodeFn st true, false)
  | .rqEncodeMetadata filter tag =>
    -- FilterManager::encodeMetadata (filter_manager.cc lines 164-194).
    let p := commonEncodeBegin st filter false .CanStartFromCurrent
    ih (.rqEncodeMetadataLoop p.2 tag) p.1
  | .rqEncodeMetadataLoop i tag =>
    -- The per-filter loop of FilterManager::encodeMetadata: a filter that
    -- has not returned from encodeHeaders or that stopped all iteration
    -- stores the metadata on its queue and ends the dispatch; after the
    -- loop the metadata is emitted via the codec.
    if i < st.encoder_filters.length then
      let fl := getF st .encoder i
      if !fl.headers_called || stoppedAll fl then
        (updF st .encoder i
          (fun fl => { fl with saved_metadata := fl.saved_metadata ++ [tag] }), false)
      else
        let st := emit st (.encodeMetadataCalled i tag)
        ih (.rqEncodeMetadataLoop (i + 1) tag) st
    else (emit st (.sinkMetadata tag), false)
  | .rqEncode100 filter =>
    -- FilterManager::encode100ContinueHeaders (filter_manager.cc lines
    -- 74-101): asserts proxy_100_continue_, records has_continue_headers_,
    -- and always starts with the next filter.
    let st := assertB st st.proxy_100_continue
    let st := { st with has_continue_headers := true }
    let p := commonEncodeBegin st filter false .AlwaysStartFromNext
    ih (.rqEncode100Loop p.2) p.1
  | .rqEncode100Loop i =>
    -- The per-filter loop of FilterManager::encode100ContinueHeaders,
    -- including commonHandleAfter100ContinueHeadersCallback (lines 645-659).
    if i < st.encoder_filters.length then
      let st := assertB st (!st.filter_call_state.encode100ContinueHeaders)
      let st := { st with filter_call_state :=
        { st.filter_call_state with encode100ContinueHeaders := true } }
      let st := emit st (.encode100Called i)
      let status := (getF st .encoder i).script.on100
      let st := { st with filter_call_state :=
        { st.filter_call_state with encode100ContinueHeaders := false } }
      let fl := getF st .encoder i
      let st := assertB st st.has_continue_headers
      let st := assertB st (!fl.continue_headers_continued)
      let st := assertB st (canIterate fl)
      if status == .StopIteration then
        (updF st .encoder i
          (fun fl => { fl with iteration_state := .StopSingleIteration }), false)
      else
        let st := assertB st (status == .Continue)
        let st := updF st .encoder i
          (fun fl => { fl with continue_headers_continued := true })
        ih (.rqEncode100Loop (i + 1)) st
    else (emit st .sink100, false)
  | .rqCommonContinue d i =>
    -- ActiveStreamFilterBase::commonContinue (filter_manager.cc lines
    -- 595-643).  The canContinue guard (modelled from the spec as: only a
    -- stopped filter can be continued) returns before any work.  The
    -- ccReplay100/ccHeaders/ccMetadata/ccData/ccTrailers trace markers
    -- record the dispatch steps this function performs.
    if !canContinueFn st d i then (st, false)
    else
      let st := assertB st (!(canIterate (getF st d i)))
      let st :=
        if stoppedAll (getF st d i) then
          updF st d i (fun fl => { fl with iterate_from_current := true })
        else st
      let st := updF st d i (fun fl => { fl with iteration_state := .Continue })
      let goOn : FMState × Bool :=
        if st.has_continue_headers && !(getF st d i).continue_headers_continued then
          let st := updF st d i (fun fl => { fl with continue_headers_continued := true })
          let st := emit st .ccReplay100
          let st := (ih (.rqDo100ContinueHeaders d i) st).1
          (st, st.response_headers)
        else (st, true)
      let st := goOn.1
      if !goOn.2 then (st, false)
      else
        let st :=
          if !(getF st d i).headers_continued then
            let st := updF st d i (fun fl => { fl with headers_continued := true })
            let es := completeSt st d && (buffer st d).isNone && !(hasTrailersSt st d)
            let st := emit st (.ccHeaders es)
            (ih (.rqDoHeaders d i es) st).1
          else st
        let st := emit st .ccMetadata
        let st := (ih (.rqDoMetadata d i) st).1
        let st :=
          if (buffer st d).isSome then
            let es := completeSt st d && !(hasTrailersSt st d)
            let st := emit st (.ccData es)
            (ih (.rqDoData d i es) st).1
          else st
        let st :=
          if hasTrailersSt st d then
            let st := emit st .ccTrailers
            (ih (.rqDoTrailers d i) st).1
          else st
        (updF st d i (fun fl => { fl with iterate_from_current := false }), false)
  | .rqDoHeaders d i es =>
    -- Modelled from the spec: doHeaders of a wrapper replays the stored
    -- headers from this filter through the direction's headers path.
    match d with
    | .decoder => ih (.rqDecodeHeaders (some i) es) st
    | .encoder => ih (.rqEncodeHeaders (some i) es) st
  | .rqDoData d i es =>
    -- Modelled from the spec: doData of a wrapper dispatches the
    -- direction's buffered body (the buffer itself, hence the alias flag)
    -- from this filter, honoring iterate_from_current_filter_.
    match d with
    | .decoder =>
      ih (.rqDecodeData (some i) ((buffer st .decoder).getD "") true es
        .CanStartFromCurrent) st
    | .encoder =>
      ih (.rqEncodeData (some i) ((buffer st .encoder).getD "") true es
        .CanStartFromCurrent) st
  | .rqDoTrailers d i =>
    -- Modelled from the spec: doTrailers of a wrapper dispatches the
    -- direction's trailers from this filter.
    match d with
    | .decoder => ih (.rqDecodeTrailers (some i)) st
    | .encoder => ih (.rqEncodeTrailers (some i)) st
  | .rqDoMetadata d i =>
    -- Modelled from the spec: doMetadata drains this wrapper's queued
    -- metadata, in insertion order, when the queue is non-empty.
    let fl := getF st d i
    if !fl.saved_metadata.isEmpty then
      ih (.rqDrainSavedMetadata d i fl.saved_metadata)
        (updF st d i (fun x => { x with saved_metadata := [] }))
    else (st, false)
  | .rqDrainSavedMetadata d i tags =>
    -- Modelled from the spec: the saved metadata drain dispatches each
    -- queued map through the direction's metadata path from this filter
    -- and clears the queue.  The dispatch cannot re-enter this filter's
    -- queue, so clearing before dispatching matches the source's
    -- clear-after-loop.
    match tags with
    | [] => (st, false)
    | t :: ts =>
      let st :=
        match d with
        | .decoder => (ih (.rqDecodeMetadata (some i) t) st).1
        | .encoder => (ih (.rqEncodeMetadata (some i) t) st).1
      ih (.rqDrainSavedMetadata d i ts) st
  | .rqDo100ContinueHeaders d i =>
    -- Modelled from the spec: the 1xx replay of commonContinue goes
    -- through the encoder headers path; the decoder side has no
    -- 100-continue replay and reaching it fails loudly.
    match d with
    | .encoder => ih (.rqEncode100 (some i)) st
    | .decoder => ({ st with assert_failed := true }, false)
  | .rqHandleMetadataAfterHeadersCallback d i =>
    -- ActiveStream{Decoder,Encoder}Filter::handleMetadataAfterHeadersCallback
    -- (filter_manager.cc lines 875-886 and 1097-1109): temporarily force
    -- iterate_from_current_filter_, drain the queue unless the filter
    -- stopped all iteration, then restore the flag.
    let saved := (getF st d i).iterate_from_current
    let st := updF st d i (fun fl => { fl with iterate_from_current := true })
    let fl := getF st d i
    let st :=
      if !(stoppedAll fl) && !fl.saved_metadata.isEmpty then
        (ih (.rqDrainSavedMetadata d i fl.saved_metadata)
          (updF st d i (fun x => { x with saved_metadata := [] }))).1
      else st
    (updF st d i (fun fl => { fl with iterate_from_current := saved }), false)
  | .rqCommonHandleAfterHeadersCallback d i status =>
    -- ActiveStreamFilterBase::commonHandleAfterHeadersCallback
    -- (filter_manager.cc lines 708-736): apply the status to the iteration
    -- state (ContinueAndEndStream forcing the direction's headers-only
    -- mode), run handleMetadataAfterHeadersCallback, and report whether
    -- iteration continues.
    let fl := getF st d i
    let st := assertB st (!fl.headers_continued)
    let st := assertB st (canIterate fl)
    let st :=
      match status with
      | .StopIteration =>
        updF st d i (fun x => { x with iteration_state := .StopSingleIteration })
      | .StopAllIterationAndBuffer =>
        updF st d i (fun x => { x with iteration_state := .StopAllBuffer })
      | .StopAllIterationAndWatermark =>
        updF st d i (fun x => { x with iteration_state := .StopAllWatermark })
      | .ContinueAndEndStream =>
        match d with
        | .decoder => { st with decoding_headers_only := true }
        | .encoder => { st with encoding_headers_only := true }
      | .Continue => updF st d i (fun x => { x with headers_continued := true })
    let st := (ih (.rqHandleMetadataAfterHeadersCallback d i) st).1
    (st, !(stoppedAll (getF st d i) || status == .StopIteration))
  | .rqCommonHandleAfterDataCallback d i status data isAlias =>
    -- ActiveStreamFilterBase::commonHandleAfterDataCallback
    -- (filter_manager.cc lines 755-784): Continue after a single-iteration
    -- stop absorbs the data and resumes via commonContinue; stop statuses
    -- record StopSingleIteration, buffering for the buffer/watermark
    -- variants and allocating an empty buffer for the zero-byte end-stream
    -- NoBuffer case.
    if status == .Continue then
      let fl := getF st d i
      if fl.iteration_state == .StopSingleIteration then
        let st := commonHandleBufferData st d data isAlias
        ((ih (.rqCommonContinue d i) st).1, false)
      else
        (assertB st fl.headers_continued, true)
    else
      let st := updF st d i (fun x => { x with iteration_state := .StopSingleIteration })
      if status == .StopIterationAndBuffer || status == .StopIterationAndWatermark then
        let st := setStreaming st d (status == .StopIterationAndWatermark)
        (commonHandleBufferData st d data isAlias, false)
      else
        if completeSt st d && !(hasTrailersSt st d) && (buffer st d).isNone then
          let st := assertB st (getF st d i).end_stream
          (setBuffer st d (some ""), false)
        else (st, false)
  | .rqCommonHandleAfterTrailersCallback d i status =>
    -- ActiveStreamFilterBase::commonHandleAfterTrailersCallback
    -- (filter_manager.cc lines 786-801).
    if status == .Continue then
      let fl := getF st d i
      if fl.iteration_state == .StopSingleIteration then
        ((ih (.rqCommonContinue d i) st).1, false)
      else (assertB st fl.headers_continued, true)
    else (st, false)
  | .rqRunActions i actions =>
    -- Execute the injection actions a scripted filter at position i
    -- performs while its callback is in flight (the call-state bits are
    -- set by the enclosing loop, as in the C++ where the filter body runs
    -- inside the callback).
    match actions with
    | [] => (st, false)
    | a :: as =>
      let st :=
        match a with
        | .addDecodedData data streaming => (ih (.rqAddDecodedData i data streaming) st).1
        | .addDecodedTrailers => addDecodedTrailersFn st
        | .addDecodedMetadata t => addDecodedMetadataFn st t
        | .addEncodedData data streaming => (ih (.rqAddEncodedData i data streaming) st).1
        | .addEncodedTrailers => addEncodedTrailersFn st
      ih (.rqRunActions i as) st

/-- The fuel-indexed interpreter of the filter manager, by plain recursion
on the fuel. -/
def interp : Nat → Req → FMState → FMState × Bool :=
  Nat.rec (motive := fun _ => Req → FMState → FMState × Bool) interpZero
    (fun _ ih => interpStep ih)

/-- Unfolding of interp at zero fuel. -/
theorem interp_zero : interp 0 = interpZero := rfl

/-- Unfolding of interp at successor fuel. -/
theorem interp_succ (f : Nat) : interp (f + 1) = interpStep (interp f) := rfl

/-- FilterManager::decodeHeaders (filter_manager.cc lines 345-409). -/
def decodeHeadersFn (fuel : Nat) (st : FMState) (filter : Option Nat) (endStream : Bool) :
    FMState :=
  (interp fuel (.rqDecodeHeaders filter endStream) st).1

/-- FilterManager::decodeData (filter_manager.cc lines 411-520). -/
def decodeDataFn (fuel : Nat) (st : FMState) (filter : Option Nat) (data : String)
    (isAlias endStream : Bool) (start : StartState) : FMState :=
  (interp fuel (.rqDecodeData filter data isAlias endStream start) st).1

/-- FilterManager::decodeTrailers (filter_manager.cc lines 555-593). -/
def decodeTrailersFn (fuel : Nat) (st : FMState) (filter : Option Nat) : FMState :=
  (interp fuel (.rqDecodeTrailers filter) st).1

/-- FilterManager::decodeMetadata (filter_manager.cc lines 1236-1258). -/
def decodeMetadataFn (fuel : Nat) (st : FMState) (filter : Option Nat) (tag : Nat) :
    FMState :=
  (interp fuel (.rqDecodeMetadata filter tag) st).1

/-- FilterManager::processNewlyAddedMetadata (filter_manager.cc lines
334-343). -/
def processNewlyAddedMetadataFn (fuel : Nat) (st : FMState) : FMState × Bool :=
  interp fuel .rqProcessNewlyAddedMetadata st

/-- FilterManager::addDecodedData (filter_manager.cc lines 533-553). -/
def addDecodedDataFn (fuel : Nat) (st : FMState) (i : Nat) (data : String)
    (streaming : Bool) : FMState :=
  (interp fuel (.rqAddDecodedData i data streaming) st).1

/-- FilterManager::addEncodedData (filter_manager.cc lines 207-227). -/
def addEncodedDataFn (fuel : Nat) (st : FMState) (i : Nat) (data : String)
    (streaming : Bool) : FMState :=
  (interp fuel (.rqAddEncodedData i data streaming) st).1

/-- FilterManager::encodeHeaders (filter_manager.cc lines 103-162). -/
def encodeHeadersFn (fuel : Nat) (st : FMState) (filter : Option Nat) (endStream : Bool) :
    FMState :=
  (interp fuel (.rqEncodeHeaders filter endStream) st).1

/-- FilterManager::encodeData (filter_manager.cc lines 229-298). -/
def encodeDataFn (fuel : Nat) (st : FMState) (filter : Option Nat) (data : String)
    (isAlias endStream : Bool) (start : StartState) : FMState :=
  (interp fuel (.rqEncodeData filter data isAlias endStream start) st).1

/-- FilterManager::encodeTrailers (filter_manager.cc lines 300-332). -/
def encodeTrailersFn (fuel : Nat) (st : FMState) (filter : Option Nat) : FMState :=
  (interp fuel (.rqEncodeTrailers filter) st).1

/-- FilterManager::encodeMetadata (filter_manager.cc lines 164-194). -/
def encodeMetadataFn (fuel : Nat) (st : FMState) (filter : Option Nat) (tag : Nat) :
    FMState :=
  (interp fuel (.rqEncodeMetadata filter tag) st).1

/-- FilterManager::encode100ContinueHeaders (filter_manager.cc lines 74-101). -/
def encode100Fn (fuel : Nat) (st : FMState) (filter : Option Nat) : FMState :=
  (interp fuel (.rqEncode100 filter) st).1

/-- ActiveStreamFilterBase::commonContinue (filter_manager.cc lines 595-643),
reached through continueDecoding and continueEncoding. -/
def commonContinueFn (fuel : Nat) (st : FMState) (d : Dir) (i : Nat) : FMState :=
  (interp fuel (.rqCommonContinue d i) st).1

/-- ActiveStreamFilterBase::commonHandleAfterHeadersCallback
(filter_manager.cc lines 708-736). -/
def commonHandleAfterHeadersCallbackFn (fuel : Nat) (st : FMState) (d : Dir) (i : Nat)
    (status : FilterHeadersStatus) : FMState × Bool :=
  interp fuel (.rqCommonHandleAfterHeadersCallback d i status) st

/-- ActiveStreamFilterBase::commonHandleAfterDataCallback (filter_manager.cc
lines 755-784). -/
def commonHandleAfterDataCallbackFn (fuel : Nat) (st : FMState) (d : Dir) (i : Nat)
    (status : FilterDataStatus) (data : String) (isAlias : Bool) : FMState × Bool :=
  interp fuel (.rqCommonHandleAfterDataCallback d i status data isAlias) st

/-- ActiveStreamFilterBase::commonHandleAfterTrailersCallback
(filter_manager.cc lines 786-801). -/
def commonHandleAfterTrailersCallbackFn (fuel : Nat) (st : FMState) (d : Dir) (i : Nat)
    (status : FilterTrailersStatus) : FMState × Bool :=
  interp fuel (.rqCommonHandleAfterTrailersCallback d i status) st

/-- Scenario state for the encoder side of the terminal-filter question:
encoder chain of two filters where filter 0 adds body during its
encodeHeaders callback and returns Continue, and filter 1 (the last filter)
returns StopIteration on headers. -/
def c1EncState : FMState :=
  { encoder_filters :=
      [ { script := { onHeaders := .Continue,
                      onHeadersActions := [.addEncodedData "hello" false] } },
        { script := { onHeaders := .StopIteration } } ] }

/-- Dispatch of response headers with end_stream true through c1EncState. -/
def c1EncRun : FMState := encodeHeadersFn 60 c1EncState none true

/-- The decoder-side counterpart of c1EncState. -/
def c1DecState : FMState :=
  { decoder_filters :=
      [ { script := { onHeaders := .Continue,
                      onHeadersActions := [.addDecodedData "hello" false] } },
        { script := { onHeaders := .StopIteration } } ] }

/-- Dispatch of request headers with end_stream true through c1DecState,
after the owning stream recorded end-of-stream via maybeEndDecode. -/
def c1DecRun : FMState := decodeHeadersFn 60 (maybeEndDecodeFn c1DecState true) none true

/-- Scenario state for trailer injection during data: decoder chain of two
filters where filter 0 calls addDecodedTrailers from its data callback and
returns Continue. -/
def c5State : FMState :=
  { decoder_filters :=
      [ { script := { onData := .Continue, onDataActions := [.addDecodedTrailers] } },
        {} ] }

/-- Headers with end_stream false, then decodeData of "x" with end_stream
true, through c5State. -/
def c5Run : FMState :=
  let st := decodeHeadersFn 60 c5State none false
  decodeDataFn 60 (maybeEndDecodeFn st true) none "x" false true .CanStartFromCurrent

/-- Scenario state for metadata added during a headers callback that carried
end_stream: decoder chain of two filters where filter 0 adds a metadata map
from its decodeHeaders callback. -/
def c10State : FMState :=
  { decoder_filters :=
      [ { script := { onHeaders := .Continue, onHeadersActions := [.addDecodedMetadata 7] } },
        {} ] }

/-- Dispatch of request headers with end_stream true through c10State. -/
def c10Run : FMState := decodeHeadersFn 80 (maybeEndDecodeFn c10State true) none true

/-- A family of single-filter encoder states covering the relevant state
bits for commonContinue: the kind of stop the filter is in, whether
100-continue headers exist and were already replayed, whether response
headers exist, whether headers were already continued, whether the encoder
side is complete, whether body is buffered, whether trailers exist and
whether metadata is queued on the filter. -/
def mkC3State (wasStopAll hasCont replayed respHdrs hdrsCont complete buffered trailers meta :
    Bool) : FMState :=
  { encoder_filters :=
      [ { iteration_state := if wasStopAll then .StopAllBuffer else .StopSingleIteration,
          headers_continued := hdrsCont,
          continue_headers_continued := replayed,
          headers_called := true,
          saved_metadata := if meta then [5] else [] } ],
    has_continue_headers := hasCont,
    response_headers := respHdrs,
    local_complete := complete,
    buffered_response_data := if buffered then some "d" else none,
    response_trailers := trailers }

/-- The commonContinue step markers among the events. -/
def isCCMarker : Ev → Bool
  | .ccReplay100 => true
  | .ccHeaders _ => true
  | .ccMetadata => true
  | .ccData _ => true
  | .ccTrailers => true
  | _ => false

/-- The step markers commonContinue emits on a state of the mkC3State
family. -/
def runC3Markers (wasStopAll hasCont replayed respHdrs hdrsCont complete buffered trailers meta :
    Bool) : List Ev :=
  ((commonContinueFn 60
      (mkC3State wasStopAll hasCont replayed respHdrs hdrsCont complete buffered trailers meta)
      .encoder 0).trace).filter isCCMarker

/-- The step sequence the specification prescribes for commonContinue,
written from its words: replay 100-continue headers if they exist and were
not replayed (returning if response headers do not yet exist), dispatch
headers with end_stream = complete and no buffered body and no trailers if
headers were not yet continued, drain queued metadata, dispatch buffered
body with end_stream = complete and no trailers, dispatch trailers if
present. -/
def specC3Markers (wasStopAll hasCont replayed respHdrs hdrsCont complete buffered trailers meta :
    Bool) : List Ev :=
  (if hasCont && !replayed then [Ev.ccReplay100] else []) ++
  (if hasCont && !replayed && !respHdrs then [] else
    (if !hdrsCont then [Ev.ccHeaders (complete && !buffered && !trailers)] else []) ++
    [Ev.ccMetadata] ++
    (if buffered then [Ev.ccData (complete && !trailers)] else []) ++
    (if trailers then [Ev.ccTrailers] else []))


/-- Codec sink events among the observable events. -/
def isSinkEv : Ev → Bool
  | .sinkHeaders _ => true
  | .sinkData _ _ => true
  | .sinkTrailers => true
  | .sinkMetadata _ => true
  | .sink100 => true
  | .sinkEndStream => true
  | _ => false

/-- The addDecodedData decision as the specification words it: buffer when
no callback is in progress, or a headers or data callback of the decode
direction is in progress, or a decode trailers callback is in progress but
the calling filter cannot iterate; inline dispatch with end_stream false
starting after the caller when a decode trailers callback is in progress
and the filter can iterate; anything else is a programmer error. -/
def specAddDecodedDataDecision (cs : CallState) (canIter : Bool) : AddDataDecision :=
  if cs.isZero then .buffer
  else if cs.decodeHeaders || cs.decodeData then .buffer
  else if cs.decodeTrailers && !canIter then .buffer
  else if cs.decodeTrailers && canIter then .inlineDispatch false .AlwaysStartFromNext
  else .error

/-- The addEncodedData decision as the specification words it, mirroring
specAddDecodedDataDecision on the encode direction. -/
def specAddEncodedDataDecision (cs : CallState) (canIter : Bool) : AddDataDecision :=
  if cs.isZero then .buffer
  else if cs.encodeHeaders || cs.encodeData then .buffer
  else if cs.encodeTrailers && !canIter then .buffer
  else if cs.encodeTrailers && canIter then .inlineDispatch false .AlwaysStartFromNext
  else .error

/-- State of the downstream watermark subsystem: high_watermark_count_ and,
for each registered DownstreamWatermarkCallbacks, the number of
onAboveWriteBufferHighWatermark and onBelowWriteBufferLowWatermark
notifications it has observed. -/
structure WMState where
  high_watermark_count : Nat := 0
  regs : List (Nat × Nat) := []
deriving DecidableEq, Repr

/-- Operations of the watermark subsystem:
ActiveStreamDecoderFilter::addDownstreamWatermarkCallbacks (lines 978-988),
FilterManager::callHighWatermarkCallbacks (lines 1220-1225),
FilterManager::callLowWatermarkCallbacks (lines 1227-1233) and
removeDownstreamWatermarkCallbacks (lines 989-994). -/
inductive WMOp where
  | register
  | callHigh
  | callLow
  | remove (k : Nat)
deriving DecidableEq, Repr

/-- One watermark operation.  Registration immediately replays
high_watermark_count_ high notifications to the new registrant; callHigh
increments the count and notifies every registrant; callLow asserts the
count is positive (none models the failed assertion), decrements it and
notifies every registrant; remove drops a registrant. -/
def wmStep (st : WMState) : WMOp → Option WMState
  | .register =>
    some { st with regs := st.regs ++ [(st.high_watermark_count, 0)] }
  | .callHigh =>
    some { high_watermark_count := st.high_watermark_count + 1,
           regs := st.regs.map (fun p => (p.1 + 1, p.2)) }
  | .callLow =>
    if st.high_watermark_count = 0 then none
    else
      some { high_watermark_count := st.high_watermark_count - 1,
             regs := st.regs.map (fun p => (p.1, p.2 + 1)) }
  | .remove k => some { st with regs := st.regs.eraseIdx k }

/-- The initial watermark state of a fresh stream. -/
def wmInit : WMState := {}

/-- Run a sequence of watermark operations, stopping at a failed
assertion. -/
def wmRunFrom (st : WMState) : List WMOp → Option WMState
  | [] => some st
  | op :: ops =>
    match wmStep st op with
    | none => none
    | some st2 => wmRunFrom st2 ops

/-- The watermark invariant: every registrant has observed exactly
high_watermark_count_ more high notifications than low notifications. -/
def wmInv (st : WMState) : Prop :=
  ∀ p ∈ st.regs, p.1 = p.2 + st.high_watermark_count



/-- Decoder data-path scenario for the terminal-filter question: decoder
chain of two filters where filter 0 calls addDecodedTrailers during its
data callback and returns Continue, and filter 1 (the last filter)
returns StopIterationAndBuffer on data. -/
def c1DecDataState : FMState :=
  { decoder_filters :=
      [ { script := { onData := .Continue, onDataActions := [.addDecodedTrailers] } },
        { script := { onData := .StopIterationAndBuffer } } ] }

/-- Request headers with end_stream false, then decodeData of "x" with
end_stream true, through c1DecDataState, after the owning stream recorded
end-of-stream via maybeEndDecode. -/
def c1DecDataRun : FMState :=
  let st := decodeHeadersFn 60 c1DecDataState none false
  decodeDataFn 60 (maybeEndDecodeFn st true) none "x" false true .CanStartFromCurrent

/-- Encoder data-path counterpart of c1DecDataState: filter 0 calls
addEncodedTrailers during its data callback and returns Continue, and
filter 1 (the last filter) returns StopIterationAndBuffer on data. -/
def c1EncDataState : FMState :=
  { encoder_filters :=
      [ { script := { onData := .Continue, onDataActions := [.addEncodedTrailers] } },
        { script := { onData := .StopIterationAndBuffer } } ] }

/-- Response headers with end_stream false, then encodeData of "x" with
end_stream true, through c1EncDataState. -/
def c1EncDataRun : FMState :=
  let st := encodeHeadersFn 60 c1EncDataState none false
  encodeDataFn 60 st none "x" false true .CanStartFromCurrent

/-- Claim C4: addDecodedData and addEncodedData decide between buffering and
inline dispatch from the in-flight call bitset: buffer when no callback is
in progress, or a headers or data callback of the direction is in
progress, or a trailers callback of the direction is in progress but the
calling filter cannot iterate; inline dispatch with end_stream false
starting from the filter after the caller when a trailers callback of the
direction is in progress and the filter can iterate; any other in-flight
state fails loudly.  The code's branch structure equals the decision the
specification words, over every bitset value and iterate capability. -/
theorem claim_C4 :
    ∀ (b1 b2 b3 b4 b5 b6 b7 b8 ci : Bool),
      addDecodedDataDecision ⟨b1, b2, b3, b4, b5, b6, b7, b8⟩ ci =
        specAddDecodedDataDecision ⟨b1, b2, b3, b4, b5, b6, b7, b8⟩ ci ∧
      addEncodedDataDecision ⟨b1, b2, b3, b4, b5, b6, b7, b8⟩ ci =
        specAddEncodedDataDecision ⟨b1, b2, b3, b4, b5, b6, b7, b8⟩ ci := by
  decide

/-- Claim C5: for a decoder chain of two filters where filter 0 calls
addDecodedTrailers during its data callback and returns Continue,
dispatching decodeData of "x" with end_stream true makes filter 1 observe
the data with end_stream false, followed by the new trailers, whose
dispatch starts after the trailers-added origin (filter 0), so only
filter 1 receives them.  The run trips no assertion and does not run out
of fuel. -/
theorem claim_C5 :
    c5Run.trace =
      [Ev.decodeHeadersCalled 0 false, Ev.decodeHeadersCalled 1 false,
       Ev.decodeDataCalled 0 "x" true, Ev.decodeDataCalled 1 "x" false,
       Ev.decodeTrailersCalled 1] ∧
    c5Run.request_trailers = true ∧
    c5Run.assert_failed = false ∧ c5Run.out_of_fuel = false := by
  decide

/-- Claim C10: when decodeHeaders runs with end_stream true and filter 0's
headers callback adds new metadata while no request body is buffered, the
manager logs and inserts an empty data frame via addDecodedData right
after dispatching the new metadata (the frame is buffered, the buffer
transitioning from none to some ""), and the inserted empty frame is
later delivered with end_stream true so the stream still terminates after
the metadata. -/
theorem claim_C10 :
    c10Run.trace =
      [Ev.decodeHeadersCalled 0 true, Ev.insertEmptyEndStreamData 0,
       Ev.decodeMetadataCalled 0 7, Ev.decodeHeadersCalled 1 false,
       Ev.decodeMetadataCalled 1 7, Ev.ccMetadata, Ev.ccData true,
       Ev.decodeDataCalled 1 "" true] ∧
    c10Run.buffered_request_data = some "" ∧
    c10Run.assert_failed = false ∧ c10Run.out_of_fuel = false := by
  decide

/-- Claim C1 counterexample: the claim promises the terminal-filter
exception for both directions, but on the encoder chain it does not hold.
In c1EncRun the last encoder filter returns StopIteration on headers while
filter 0 had already added body ("hello" sits in the response buffer):
iteration stops right there, nothing reaches the codec sink and the added
body is not flushed to any filter, contradicting the claim at this input.
The run trips no assertion and does not run out of fuel. -/
theorem claim_C1_counterexample :
    c1EncRun.trace = [Ev.encodeHeadersCalled 0 true, Ev.encodeHeadersCalled 1 false] ∧
    c1EncRun.trace.filter isSinkEv = [] ∧
    c1EncRun.buffered_response_data = some "hello" ∧
    c1EncRun.assert_failed = false ∧ c1EncRun.out_of_fuel = false := by
  decide

/-- Claim C1 amended: the terminal-filter exception holds on the decoder
chain only, on both the headers and the data path.  In c1DecRun (decoder
headers path) the last filter's StopIteration on headers does not stop
iteration: the post-loop continuation runs and the body that filter 0
added is flushed onward, reaching filter 1 as decodeData "hello" with
end_stream true.  In c1DecDataRun (decoder data path) the last filter's
StopIterationAndBuffer on data does not stop iteration: the post-loop
trailers dispatch runs and the trailers that filter 0 added reach
filter 1.  On the encoder chain both paths stop at the last filter like
at any other: in c1EncRun (encoder headers path) no sink emission and no
flush happens, and in c1EncDataRun (encoder data path) the post-loop
never runs, so the trailers filter 0 added are dispatched to no filter
and the buffered body is not emitted. -/
theorem claim_C1_amended :
    c1DecRun.trace =
      [Ev.decodeHeadersCalled 0 true, Ev.decodeHeadersCalled 1 false,
       Ev.ccMetadata, Ev.ccData true, Ev.decodeDataCalled 1 "hello" true,
       Ev.ccHeaders false, Ev.ccMetadata, Ev.ccData true] ∧
    Ev.decodeDataCalled 1 "hello" true ∈ c1DecRun.trace ∧
    c1DecRun.assert_failed = false ∧ c1DecRun.out_of_fuel = false ∧
    c1EncRun.trace = [Ev.encodeHeadersCalled 0 true, Ev.encodeHeadersCalled 1 false] ∧
    c1EncRun.trace.filter isSinkEv = [] ∧
    c1DecDataRun.trace =
      [Ev.decodeHeadersCalled 0 false, Ev.decodeHeadersCalled 1 false,
       Ev.decodeDataCalled 0 "x" true, Ev.decodeDataCalled 1 "x" false,
       Ev.decodeTrailersCalled 1, Ev.ccMetadata, Ev.ccData false, Ev.ccTrailers] ∧
    Ev.decodeTrailersCalled 1 ∈ c1DecDataRun.trace ∧
    c1DecDataRun.assert_failed = false ∧ c1DecDataRun.out_of_fuel = false ∧
    c1EncDataRun.trace =
      [Ev.encodeHeadersCalled 0 false, Ev.encodeHeadersCalled 1 false,
       Ev.sinkHeaders false, Ev.encodeDataCalled 0 "x" true,
       Ev.encodeDataCalled 1 "x" false] ∧
    c1EncDataRun.response_trailers = true ∧
    c1EncDataRun.buffered_response_data = some "x" ∧
    Ev.encodeTrailersCalled 1 ∉ c1EncDataRun.trace ∧
    Ev.sinkTrailers ∉ c1EncDataRun.trace ∧
    c1EncDataRun.assert_failed = false ∧ c1EncDataRun.out_of_fuel = false := by
  decide

/-- Claim C3: commonContinue, called on a stopped filter with no callback
in progress, performs exactly the specified actions in this order: after
the StopAll bookkeeping, (2) replay 100-continue headers via the headers
path when they exist and were not replayed, returning if response headers
do not yet exist; (3) dispatch headers with end_stream = (complete and no
buffered body and no trailers) when headers were not yet continued;
(4) drain queued metadata; (5) dispatch buffered body with end_stream =
(complete and no trailers); (6) dispatch trailers when present.  Checked
as equality of the commonContinue step markers with the sequence the
specification words, over every combination of the stop kind, 100-continue
presence and replay state, response-header presence, headers-continued
state, completeness, buffered body, trailers and queued metadata. -/
theorem claim_C3 :
    ∀ (wasStopAll hasCont replayed respHdrs hdrsCont complete buffered trailers meta : Bool),
      runC3Markers wasStopAll hasCont replayed respHdrs hdrsCont complete buffered
        trailers meta =
      specC3Markers wasStopAll hasCont replayed respHdrs hdrsCont complete buffered
        trailers meta := by
  decide


theorem recordLatest_none (chain : List Nat) (i : Nat) (hi : i < chain.length) :
    recordLatestDataFilter chain i none = some (chain.get ⟨i, hi⟩) := by
  simp [recordLatestDataFilter, List.getElem?_eq_getElem hi, List.get_eq_getElem]

theorem recordLatest_some (chain : List Nat) (hnd : chain.Nodup) (i j : Nat)
    (hi : i < chain.length) (hj : j < chain.length) :
    recordLatestDataFilter chain i (some (chain.get ⟨j, hj⟩)) =
      if i = j + 1 then some (chain.get ⟨i, hi⟩) else some (chain.get ⟨j, hj⟩) := by
  unfold recordLatestDataFilter
  by_cases hij : i = j + 1
  · subst hij
    have h1 : j + 1 - 1 = j := by omega
    simp [h1, List.getElem?_eq_getElem hj, List.getElem?_eq_getElem hi,
      List.get_eq_getElem]
  · rcases Nat.eq_zero_or_pos i with h0 | hpos
    · subst h0
      simp [hij]
    · have hi1 : i - 1 < chain.length := by omega
      have hge : chain[i-1]? = some (chain.get ⟨i - 1, hi1⟩) := by
        simp [List.getElem?_eq_getElem hi1, List.get_eq_getElem]
      have hne : chain[i - 1] ≠ chain[j] := by
        intro he
        have h2 : chain.get ⟨i - 1, hi1⟩ = chain.get ⟨j, hj⟩ := by
          simpa [List.get_eq_getElem] using he
        have h3 := (List.Nodup.get_inj_iff hnd).mp h2
        have h4 : i - 1 = j := congrArg Fin.val h3
        omega
      simp [hij, hge, hne, Nat.pos_iff_ne_zero.mp hpos, List.get_eq_getElem]

theorem sweepLatest_mono (chain : List Nat) (hnd : chain.Nodup) :
    ∀ (ps : List Nat), (∀ p ∈ ps, p < chain.length) →
      ∀ (j : Nat) (hj : j < chain.length),
        ∃ (k : Nat) (hk : k < chain.length), j ≤ k ∧
          sweepLatest chain ps (some (chain.get ⟨j, hj⟩)) = some (chain.get ⟨k, hk⟩) := by
  intro ps
  induction ps with
  | nil => exact fun _ j hj => ⟨j, hj, Nat.le_refl j, rfl⟩
  | cons p ps ih =>
    intro hps j hj
    have hp : p < chain.length := hps p (by simp)
    have hstep := recordLatest_some chain hnd p j hp hj
    have hfold : sweepLatest chain (p :: ps) (some (chain.get ⟨j, hj⟩)) =
        sweepLatest chain ps (recordLatestDataFilter chain p (some (chain.get ⟨j, hj⟩))) :=
      rfl
    by_cases hpj : p = j + 1
    · rcases ih (fun q hq => hps q (List.mem_cons_of_mem p hq)) p hp with ⟨k, hk, hle, heq⟩
      refine ⟨k, hk, by omega, ?_⟩
      rw [hfold, hstep, if_pos hpj]
      exact heq
    · rcases ih (fun q hq => hps q (List.mem_cons_of_mem p hq)) j hj with ⟨k, hk, hle, heq⟩
      refine ⟨k, hk, hle, ?_⟩
      rw [hfold, hstep, if_neg hpj]
      exact heq

/-- Claim C2: when data is about to be delivered to the filter at position
i, the latest_data_filter pointer becomes filter i when unset, advances to
filter i exactly when it currently equals filter i-1 (with i positive),
and is otherwise unchanged; consequently, over the positions one
data-dispatching call visits, the pointer only moves forward through the
chain, never back to an earlier filter. -/
theorem claim_C2 (chain : List Nat) (hnd : chain.Nodup) :
    (∀ (i : Nat) (hi : i < chain.length),
      recordLatestDataFilter chain i none = some (chain.get ⟨i, hi⟩)) ∧
    (∀ (i j : Nat) (hi : i < chain.length) (hj : j < chain.length),
      recordLatestDataFilter chain i (some (chain.get ⟨j, hj⟩)) =
        if i = j + 1 then some (chain.get ⟨i, hi⟩) else some (chain.get ⟨j, hj⟩)) ∧
    (∀ (ps : List Nat), (∀ p ∈ ps, p < chain.length) →
      ∀ (j : Nat) (hj : j < chain.length),
        ∃ (k : Nat) (hk : k < chain.length), j ≤ k ∧
          sweepLatest chain ps (some (chain.get ⟨j, hj⟩)) = some (chain.get ⟨k, hk⟩)) :=
  ⟨fun i hi => recordLatest_none chain i hi,
   fun i j hi hj => recordLatest_some chain hnd i j hi hj,
   fun ps hps j hj => sweepLatest_mono chain hnd ps hps j hj⟩

/-- Witness for claim C2 on the concrete chain of filter identities
[10, 20, 30]: from latest = filter at position 1, delivery at position 2
advances the pointer to the filter at position 2. -/
theorem claim_C2_witness :
    recordLatestDataFilter [10, 20, 30] 2 (some 20) = some 30 := by
  have h := (claim_C2 [10, 20, 30] (by decide)).2.1 2 1 (by decide) (by decide)
  simpa using h

/-- Claim C6: addDecodedTrailers and addEncodedTrailers fail their
assertions unless the LastDataFrame bit is set and the corresponding
trailer slot is still empty; under those preconditions each call
allocates the trailer map (the slot becomes occupied), and a second call
on the same stream always trips the assertion, so each trailer map is
synthesized at most once per stream. -/
theorem claim_C6 (st : FMState) (h : st.assert_failed = false) :
    ((addDecodedTrailersFn st).assert_failed = false ↔
      (st.filter_call_state.lastDataFrame = true ∧ st.request_trailers = false)) ∧
    (addDecodedTrailersFn st).request_trailers = true ∧
    (addDecodedTrailersFn (addDecodedTrailersFn st)).assert_failed = true ∧
    ((addEncodedTrailersFn st).assert_failed = false ↔
      (st.filter_call_state.lastDataFrame = true ∧ st.response_trailers = false)) ∧
    (addEncodedTrailersFn st).response_trailers = true ∧
    (addEncodedTrailersFn (addEncodedTrailersFn st)).assert_failed = true := by
  cases hl : st.filter_call_state.lastDataFrame <;>
    cases ht : st.request_trailers <;>
    cases hr : st.response_trailers <;>
    simp [addDecodedTrailersFn, addEncodedTrailersFn, assertB, h, hl, ht, hr]

/-- Witness for claim C6 on a state whose call bitset has the
LastDataFrame bit set and whose trailer slots are empty. -/
theorem claim_C6_witness :
    (addDecodedTrailersFn { filter_call_state := { lastDataFrame := true } }).request_trailers =
      true :=
  (claim_C6 { filter_call_state := { lastDataFrame := true } } (by rfl)).2.1

/-- Claim C7: once local_complete is set, decodeData and decodeTrailers
return immediately: the state (filters, buffers, trailer slots, trace) is
returned unchanged, so no filter callback runs, for every fuel bound,
start policy and payload. -/
theorem claim_C7 (fuel : Nat) (st : FMState) (filter : Option Nat) (data : String)
    (isAlias endStream : Bool) (start : StartState) (h : st.local_complete = true) :
    decodeDataFn fuel st filter data isAlias endStream start = st ∧
    decodeTrailersFn fuel st filter = st := by
  cases fuel with
  | zero =>
    constructor <;> simp [decodeDataFn, decodeTrailersFn, interp_zero, interpZero, h]
  | succ f =>
    constructor <;> simp [decodeDataFn, decodeTrailersFn, interp_succ, interpStep, h]

/-- Witness for claim C7 on a concrete stream state with local_complete
set. -/
theorem claim_C7_witness :
    decodeDataFn 5 { local_complete := true } none "x" false true .CanStartFromCurrent =
      { local_complete := true } ∧
    decodeTrailersFn 5 { local_complete := true } none = { local_complete := true } :=
  claim_C7 5 { local_complete := true } none "x" false true .CanStartFromCurrent (by rfl)

/-- Claim C8: calling commonContinue (via continueDecoding or
continueEncoding) on a filter that is not stopped is a no-op: the
canContinue guard returns the state unchanged, with no dispatch of
headers, data, metadata or trailers. -/
theorem claim_C8 (fuel : Nat) (st : FMState) (d : Dir) (i : Nat)
    (h : canIterate (getF st d i) = true) :
    commonContinueFn fuel st d i = st := by
  cases fuel with
  | zero => simp [commonContinueFn, interp_zero, interpZero, canContinueFn, h]
  | succ f => simp [commonContinueFn, interp_succ, interpStep, canContinueFn, h]

/-- Witness for claim C8 on a one-filter decoder chain whose filter is in
the Continue iteration state. -/
theorem claim_C8_witness :
    commonContinueFn 5 { decoder_filters := [{}] } .decoder 0 =
      { decoder_filters := [{}] } :=
  claim_C8 5 { decoder_filters := [{}] } .decoder 0 (by rfl)

theorem wmStep_inv {st st2 : WMState} (hinv : wmInv st) (op : WMOp)
    (h : wmStep st op = some st2) : wmInv st2 := by
  cases op with
  | register =>
    simp [wmStep] at h
    subst h
    intro p hp
    rcases List.mem_append.mp hp with hmem | hmem
    · exact hinv p hmem
    · simp at hmem
      simp [hmem]
  | callHigh =>
    simp [wmStep] at h
    subst h
    intro p hp
    simp at hp
    rcases hp with ⟨a, b, hmem, hab⟩
    subst hab
    have := hinv (a, b) hmem
    simp at this ⊢
    omega
  | callLow =>
    by_cases hz : st.high_watermark_count = 0
    · simp [wmStep, hz] at h
    · simp [wmStep, hz] at h
      subst h
      intro p hp
      simp at hp
      rcases hp with ⟨a, b, hmem, hab⟩
      subst hab
      have := hinv (a, b) hmem
      simp at this ⊢
      omega
  | remove k =>
    simp [wmStep] at h
    subst h
    intro p hp
    exact hinv p (List.mem_of_mem_eraseIdx hp)

theorem wmRunFrom_inv :
    ∀ (ops : List WMOp) (st st2 : WMState), wmInv st → wmRunFrom st ops = some st2 →
      wmInv st2 := by
  intro ops
  induction ops with
  | nil =>
    intro st st2 hinv h
    simp [wmRunFrom] at h
    subst h
    exact hinv
  | cons op ops ih =>
    intro st st2 hinv h
    unfold wmRunFrom at h
    cases hstep : wmStep st op with
    | none => simp [hstep] at h
    | some stm =>
      rw [hstep] at h
      exact ih stm st2 (wmStep_inv hinv op hstep) h

/-- Claim C9: a registrant added via addDownstreamWatermarkCallbacks
immediately receives exactly high_watermark_count_ high notifications, so
after any assertion-respecting sequence of registrations,
callHighWatermarkCallbacks, callLowWatermarkCallbacks and removals from
the fresh stream state, every currently registered callback has observed
exactly high_watermark_count_ more high notifications than low
notifications; and callLowWatermarkCallbacks fails its assertion exactly
when the count is zero. -/
theorem claim_C9 (ops : List WMOp) (st2 : WMState)
    (h : wmRunFrom wmInit ops = some st2) :
    (∀ p ∈ st2.regs, p.1 = p.2 + st2.high_watermark_count) ∧
    (∀ st : WMState, wmStep st .callLow = none ↔ st.high_watermark_count = 0) := by
  constructor
  · exact wmRunFrom_inv ops wmInit st2 (by intro p hp; simp [wmInit] at hp) h
  · intro st
    by_cases hz : st.high_watermark_count = 0 <;> simp [wmStep, hz]

/-- Witness for claim C9 on the concrete operation sequence register,
callHigh, register, callLow: the run succeeds and both registrants end
with one high and one low notification while the count is back to zero. -/
theorem claim_C9_witness :
    wmRunFrom wmInit [WMOp.register, WMOp.callHigh, WMOp.register, WMOp.callLow] =
      some { high_watermark_count := 0, regs := [(1, 1), (1, 1)] } ∧
    (1 : Nat) = 1 + ({ high_watermark_count := 0, regs := [(1, 1), (1, 1)] } :
      WMState).high_watermark_count := by
  refine ⟨by decide, ?_⟩
  have h := claim_C9 [WMOp.register, WMOp.callHigh, WMOp.register, WMOp.callLow]
    { high_watermark_count := 0, regs := [(1, 1), (1, 1)] } (by decide)
  exact h.1 (1, 1) (List.mem_cons_self _ _)

end EnvoyHttp
